import Mathlib

/-!
Shallow embedding of `awsalot/rds_sg_connector.py`: the security-group
connectivity reconciliation workflow (source resolver, target resolver,
ingress reconciler, and the `main` command driver).

Provider I/O is modelled as an environment: the response each boto3 read
call would return, and the outcome each `authorize_security_group_ingress`
call would have.  Python exceptions that the code does not catch are
modelled as `Except.error`; printed lines are collected in a list.
-/

/-- A single-quote character, written with an escape. -/
def sqc : String := "\x27"

/-- Wrap a string in single quotes, as the Python repr of a str does. -/
def pyrepr (s : String) : String := sqc ++ s ++ sqc

/-- The `awsvpcConfiguration` entry of an ECS deployment network
configuration: carries the `securityGroups` list. -/
structure AwsvpcConfiguration where
  securityGroups : List String
deriving DecidableEq

/-- The `networkConfiguration` entry of an ECS deployment. -/
structure NetworkConfiguration where
  awsvpcConfiguration : AwsvpcConfiguration
deriving DecidableEq

/-- One ECS deployment, as returned by `describe_services`. -/
structure Deployment where
  networkConfiguration : NetworkConfiguration
deriving DecidableEq

/-- One ECS service, as returned by `describe_services`: carries its
`deployments` list. -/
structure EcsService where
  deployments : List Deployment
deriving DecidableEq

/-- One entry of the `VpcSecurityGroups` list of an RDS instance. -/
structure VpcSecurityGroup where
  VpcSecurityGroupId : String
deriving DecidableEq

/-- One RDS instance, as returned by `describe_db_instances`: carries its
`VpcSecurityGroups` list. -/
structure DBInstance where
  VpcSecurityGroups : List VpcSecurityGroup
deriving DecidableEq

/-- The behaviour of the provider on
`rds.describe_db_instances(DBInstanceIdentifier=i)`: either the call
raises, or it returns a `DBInstances` list. -/
inductive RdsLookup where
  | raises (msg : String)
  | returns (dbInstances : List DBInstance)
deriving DecidableEq

/-- The argument record of one `authorize_security_group_ingress` call, as
built at lines 79 to 94 of the source: the target `GroupId` and the single
`IpPermissions` entry with one `UserIdGroupPairs` entry. -/
structure Intent where
  GroupId : String
  IpProtocol : String
  FromPort : Nat
  ToPort : Nat
  sourceGroupId : String
  Description : String
deriving DecidableEq

/-- The behaviour of the provider on one
`authorize_security_group_ingress` call: success, or a `ClientError`
(the only exception class the source catches there). -/
inductive AuthOutcome where
  | ok
  | clientError (msg : String)
deriving DecidableEq

/-- Provider calls issued by the run, in order: a
`describe_db_instances` lookup for a target instance, or an
`authorize_security_group_ingress` mutation. -/
inductive Event where
  | lookupRds (instance_identifier : String)
  | authorizeIngress (intent : Intent)
deriving DecidableEq

/-- The per-target outcome of one call to
`modify_security_group_rules`. -/
inductive Outcome where
  | applied
  | dryRunReported
  | failed (cause : String)
deriving DecidableEq

/-- The provider environment a run executes against. -/
structure Env where
  rdsLookup : String → RdsLookup
  auth : Intent → AuthOutcome

/-- `get_security_group_from_ecs_service` (lines 27 to 33): take
`services[0]`, its `deployments[0]`, and the first entry of the security
group list of its network configuration.  Each `[0]` on an empty list
raises `IndexError`, modelled as `Except.error`. -/
def get_security_group_from_ecs_service (services : List EcsService) :
    Except String String :=
  match services with
  | [] => .error "IndexError: list index out of range"
  | service :: _ =>
    match service.deployments with
    | [] => .error "IndexError: list index out of range"
    | deployment :: _ =>
      match deployment.networkConfiguration.awsvpcConfiguration.securityGroups with
      | [] => .error "IndexError: list index out of range"
      | g :: _ => .ok g

/-- `get_security_group_ids_for_rds_instance` (lines 36 to 58): returns
the printed lines and the returned list of security group ids.  A raised
exception is caught, one error line is printed, and `[]` is returned; an
empty `DBInstances` list returns `[]`; otherwise the ids of the first
instance are returned. -/
def get_security_group_ids_for_rds_instance (resp : RdsLookup)
    (instance_identifier : String) : List String × List String :=
  match resp with
  | .returns dbInstances =>
    match dbInstances with
    | db :: _ => ([], db.VpcSecurityGroups.map (fun sg => sg.VpcSecurityGroupId))
    | [] => ([], [])
  | .raises e =>
    (["Error fetching security group IDs for RDS instance " ++
        pyrepr instance_identifier ++ ": " ++ e], [])

/-- `modify_security_group_rules` (lines 61 to 97): returns the printed
lines, the provider calls issued, and the per-target outcome.  On dry run
it prints one line and returns before any call; otherwise it issues the
authorize call, printing a success line, or catching a `ClientError` and
printing an error line. -/
def modify_security_group_rules (auth : Intent → AuthOutcome)
    (security_group_id : String) (protocol : String)
    (from_port to_port : Nat) (source_security_group_id : String)
    (description : String) (dry_run : Bool) :
    List String × List Event × Outcome :=
  if dry_run then
    (["Dry run: Would update Security Group " ++ pyrepr security_group_id ++
        " to allow connections from " ++ pyrepr source_security_group_id],
      [], .dryRunReported)
  else
    let intent : Intent :=
      ⟨security_group_id, protocol, from_port, to_port,
        source_security_group_id, description⟩
    match auth intent with
    | .ok =>
      (["Security Group " ++ security_group_id ++ " updated successfully."],
        [.authorizeIngress intent], .applied)
    | .clientError e =>
      (["Error updating Security Group: " ++ e],
        [.authorizeIngress intent], .failed e)

/-- The list comprehension of `main` at lines 191 to 194:
`[get_security_group_ids_for_rds_instance(i)[0] for i in instances]`.
Evaluates left to right; the `[0]` on an empty result raises
`IndexError`, aborting the comprehension.  Returns printed lines, the
lookup events issued, and the resolved first group per instance (or the
error). -/
def resolve_targets (env : Env) :
    List String → List String × List Event × Except String (List String)
  | [] => ([], [], .ok [])
  | i :: rest =>
    let r := get_security_group_ids_for_rds_instance (env.rdsLookup i) i
    match r.2 with
    | [] => (r.1, [.lookupRds i], .error "IndexError: list index out of range")
    | g :: _ =>
      let t := resolve_targets env rest
      (r.1 ++ t.1, .lookupRds i :: t.2.1,
        t.2.2.map (fun gs => g :: gs))

/-- The `for` loop of `main` at lines 197 to 206: one
`modify_security_group_rules` call per resolved security group, with
`protocol="tcp"`, `from_port=5432`, `to_port=5432`, the selected source
group and the supplied description. -/
def mutate_all (env : Env) (dry_run : Bool) (src_sg description : String) :
    List String → List String × List Event × List Outcome
  | [] => ([], [], [])
  | sg :: rest =>
    let m := modify_security_group_rules env.auth sg "tcp" 5432 5432
      src_sg description dry_run
    let t := mutate_all env dry_run src_sg description rest
    (m.1 ++ t.1, m.2.1 ++ t.2.1, m.2.2 :: t.2.2)

/-- The non-interactive inputs of one run of `main`: the dry run flag,
the resolved source security group, the entered description, and the
selected RDS instance identifiers. -/
structure RunInput where
  dry_run : Bool
  src_sg : String
  description : String
  rds_instances : List String
deriving DecidableEq

/-- The observable result of one run: printed lines, provider calls in
order, and either the per-target outcome list or the uncaught exception
that aborted the run. -/
structure RunOut where
  printed : List String
  events : List Event
  result : Except String (List Outcome)

/-- `main` from line 190 on (after source selection and prompts): resolve
every selected RDS instance to its first security group, then run the
mutation loop.  An `IndexError` in the resolution comprehension is not
caught and aborts the run. -/
def main_run (env : Env) (inp : RunInput) : RunOut :=
  let r := resolve_targets env inp.rds_instances
  match r.2.2 with
  | .error e => ⟨r.1, r.2.1, .error e⟩
  | .ok sgs =>
    let m := mutate_all env inp.dry_run inp.src_sg inp.description sgs
    ⟨r.1 ++ m.1, r.2.1 ++ m.2.1, .ok m.2.2⟩

/-- `main` with the ECS source path (lines 168 to 169): source resolution
through `get_security_group_from_ecs_service` runs first; an exception
there is not caught and aborts the run before any RDS lookup. -/
def main_ecs (env : Env) (services : List EcsService) (dry_run : Bool)
    (description : String) (rds_instances : List String) : RunOut :=
  match get_security_group_from_ecs_service services with
  | .error e => ⟨[], [], .error e⟩
  | .ok src => main_run env ⟨dry_run, src, description, rds_instances⟩

/-- The intent built by the mutation loop of `main` for one target
security group. -/
def intentFor (sg src_sg description : String) : Intent :=
  ⟨sg, "tcp", 5432, 5432, src_sg, description⟩

/-- The authorize calls among a list of events. -/
def authorizeCalls (evs : List Event) : List Intent :=
  evs.filterMap (fun e =>
    match e with
    | .authorizeIngress i => some i
    | .lookupRds _ => none)

/-- Whether the second character list starts with the first. -/
def charsLead : List Char → List Char → Bool
  | [], _ => true
  | _ :: _, [] => false
  | b :: bs, a :: as => a == b && charsLead bs as

/-- Whether the second character list contains the first. -/
def charsMention (sub hay : List Char) : Bool :=
  charsLead sub hay ||
    match hay with
    | [] => false
    | _ :: t => charsMention sub t

/-- Whether one printed line mentions a given identifier. -/
def lineMentions (line target : String) : Bool :=
  charsMention target.data line.data

/-- The outcome the mutation loop of `main` produces for one resolved
target security group. -/
def outcomeOf (env : Env) (src_sg description : String) (dry_run : Bool)
    (sg : String) : Outcome :=
  (modify_security_group_rules env.auth sg "tcp" 5432 5432
    src_sg description dry_run).2.2

/-- Environment where `db-a` has an RDS instance with no security groups
and `db-b` resolves to `sg-b`; every authorize call would succeed. -/
def env1 : Env :=
  ⟨fun i =>
    if i == "db-a" then .returns [⟨[]⟩]
    else if i == "db-b" then .returns [⟨[⟨"sg-b"⟩]⟩]
    else .returns [],
  fun _ => .ok⟩

/-- Run input selecting `db-a` then `db-b`, not a dry run. -/
def rin1 : RunInput := ⟨false, "sg-src", "desc", ["db-a", "db-b"]⟩

/-- Environment where every RDS lookup returns no matching instance. -/
def env2 : Env := ⟨fun _ => .returns [], fun _ => .ok⟩

/-- Run input selecting the single instance `db-a`, not a dry run. -/
def rin2 : RunInput := ⟨false, "sg-src", "desc", ["db-a"]⟩

/-- Environment where only `db-a` resolves, to `sg-a`. -/
def env3 : Env :=
  ⟨fun i => if i == "db-a" then .returns [⟨[⟨"sg-a"⟩]⟩] else .returns [],
  fun _ => .ok⟩

/-- Dry-run input selecting `db-a` then `db-b`. -/
def rin3 : RunInput := ⟨true, "sg-src", "desc", ["db-a", "db-b"]⟩

/-- Environment where `db-t` resolves to `sg-t`, every other instance to
`sg-u`, and authorize calls against `sg-t` fail with a duplicate-rule
client error while all others succeed. -/
def env4 : Env :=
  ⟨fun i =>
    if i == "db-t" then .returns [⟨[⟨"sg-t"⟩]⟩] else .returns [⟨[⟨"sg-u"⟩]⟩],
  fun it =>
    if it.GroupId == "sg-t" then .clientError "Duplicate rule" else .ok⟩

/-- Run input selecting `db-t` then `db-u`, not a dry run. -/
def rin4 : RunInput := ⟨false, "sg-src", "desc", ["db-t", "db-u"]⟩

/-- An ECS service with one deployment listing two security groups. -/
def svc6 : EcsService := ⟨[⟨⟨⟨["sg-ecs", "sg-extra"]⟩⟩⟩]⟩

/-- An ECS service with no deployments. -/
def svc6bad : EcsService := ⟨[]⟩

/-- Environment where every RDS lookup returns no matching instance. -/
def env6 : Env := ⟨fun _ => .returns [], fun _ => .ok⟩

/-- Environment where every RDS lookup resolves to the single group
`sg-a` and every authorize call succeeds. -/
def env7 : Env := ⟨fun _ => .returns [⟨[⟨"sg-a"⟩]⟩], fun _ => .ok⟩

/-- Run input selecting the single instance `db-a`, not a dry run. -/
def rin8 : RunInput := ⟨false, "sg-src", "desc", ["db-a"]⟩

/-- Dry-run input selecting the single instance `db-a`. -/
def rin9 : RunInput := ⟨true, "sg-src", "desc", ["db-a"]⟩

/-- Run input selecting `db-a` then `db-b`, not a dry run. -/
def rin10 : RunInput := ⟨false, "sg-src", "desc", ["db-a", "db-b"]⟩

/-- Every list starts with itself. -/
theorem charsLead_self (x : List Char) : charsLead x x = true := by
  induction x with
  | nil => rfl
  | cons a as ih => simp [charsLead, ih]

/-- A list followed by anything starts with that list. -/
theorem charsLead_self_append (x y : List Char) : charsLead x (x ++ y) = true := by
  induction x with
  | nil => rfl
  | cons a as ih => simp [charsLead, ih]

/-- Extending the haystack on the right preserves `charsLead`. -/
theorem charsLead_mono (sub x y : List Char) (h : charsLead sub x = true) :
    charsLead sub (x ++ y) = true := by
  induction sub generalizing x with
  | nil => rfl
  | cons b bs ih =>
    cases x with
    | nil => simp [charsLead] at h
    | cons a as =>
      simp only [charsLead, Bool.and_eq_true] at h
      simp [charsLead, h.1, ih as h.2]

/-- Every list contains itself. -/
theorem charsMention_self (x : List Char) : charsMention x x = true := by
  cases x with
  | nil => rfl
  | cons a as =>
    simp only [charsMention, Bool.or_eq_true]
    exact Or.inl (charsLead_self _)

/-- A list contains itself followed by anything. -/
theorem charsMention_self_append (x q : List Char) :
    charsMention x (x ++ q) = true := by
  cases x with
  | nil => cases q <;> rfl
  | cons a as =>
    simp only [List.cons_append, charsMention, Bool.or_eq_true]
    exact Or.inl (charsLead_self_append _ _)

/-- Consing onto the haystack preserves `charsMention`. -/
theorem charsMention_cons (a : Char) (t sub : List Char)
    (h : charsMention sub t = true) : charsMention sub (a :: t) = true := by
  simp only [charsMention, Bool.or_eq_true]
  exact Or.inr h

/-- Extending the haystack on the left preserves `charsMention`. -/
theorem charsMention_append_left (p rest sub : List Char)
    (h : charsMention sub rest = true) : charsMention sub (p ++ rest) = true := by
  induction p with
  | nil => simpa using h
  | cons a t ih => exact charsMention_cons a _ _ ih

/-- Extending the haystack on the right preserves `charsMention`. -/
theorem charsMention_append_right (x y sub : List Char)
    (h : charsMention sub x = true) : charsMention sub (x ++ y) = true := by
  induction x with
  | nil =>
    cases sub with
    | nil => cases y <;> rfl
    | cons b bs => simp [charsMention, charsLead] at h
  | cons a t ih =>
    simp only [charsMention, Bool.or_eq_true] at h
    simp only [List.cons_append, charsMention, Bool.or_eq_true]
    rcases h with h | h
    · exact Or.inl (charsLead_mono _ _ _ h)
    · exact Or.inr (ih h)

/-- Every string mentions itself. -/
theorem lineMentions_self (s : String) : lineMentions s s = true :=
  charsMention_self s.data

/-- Extending a line on the left preserves `lineMentions`. -/
theorem lineMentions_append_left (a l s : String)
    (h : lineMentions l s = true) : lineMentions (a ++ l) s = true := by
  simp only [lineMentions] at h
  simp only [lineMentions, String.data_append]
  exact charsMention_append_left a.data l.data s.data h

/-- Extending a line on the right preserves `lineMentions`. -/
theorem lineMentions_append_right (l b s : String)
    (h : lineMentions l s = true) : lineMentions (l ++ b) s = true := by
  simp only [lineMentions] at h
  simp only [lineMentions, String.data_append]
  exact charsMention_append_right l.data b.data s.data h

/-- A line that carries the Python repr of an identifier mentions it. -/
theorem lineMentions_pyrepr (s : String) : lineMentions (pyrepr s) s := by
  simp only [pyrepr]
  exact lineMentions_append_right _ _ _
    (lineMentions_append_left _ _ _ (lineMentions_self s))

/-- The outcome list of the mutation loop is the pointwise outcome of
each resolved target group. -/
theorem mutate_all_outcomes (env : Env) (d : Bool) (s c : String)
    (l : List String) :
    (mutate_all env d s c l).2.2 = l.map (outcomeOf env s c d) := by
  induction l with
  | nil => rfl
  | cons sg rest ih => simp [mutate_all, outcomeOf, ih]

/-- Every event of one `modify_security_group_rules` call is the
authorize call for its own target with the uniform rule shape. -/
theorem modify_events_shape (auth : Intent → AuthOutcome) (sg s c : String)
    (d : Bool) :
    ∀ e ∈ (modify_security_group_rules auth sg "tcp" 5432 5432 s c d).2.1,
      e = .authorizeIngress (intentFor sg s c) := by
  intro e he
  cases d with
  | true => simp [modify_security_group_rules] at he
  | false =>
    cases hauth : auth ⟨sg, "tcp", 5432, 5432, s, c⟩ with
    | ok =>
      simp [modify_security_group_rules, hauth] at he
      simpa [intentFor] using he
    | clientError m =>
      simp [modify_security_group_rules, hauth] at he
      simpa [intentFor] using he

/-- Every event of the mutation loop is an authorize call for one of the
target groups, with the uniform rule shape. -/
theorem mutate_events_shape (env : Env) (d : Bool) (s c : String)
    (l : List String) :
    ∀ e ∈ (mutate_all env d s c l).2.1,
      ∃ sg, sg ∈ l ∧ e = .authorizeIngress (intentFor sg s c) := by
  induction l with
  | nil => intro e he; simp [mutate_all] at he
  | cons sg rest ih =>
    intro e he
    simp only [mutate_all] at he
    rcases List.mem_append.1 he with h | h
    · exact ⟨sg, List.mem_cons_self sg rest,
        modify_events_shape env.auth sg s c d e h⟩
    · obtain ⟨x, hx, hex⟩ := ih e h
      exact ⟨x, List.mem_cons_of_mem _ hx, hex⟩

/-- Outside dry run, the mutation loop issues the authorize call of every
target group in the list. -/
theorem mem_mutate_events (env : Env) (s c : String) (l : List String)
    (sg : String) (hsg : sg ∈ l) :
    Event.authorizeIngress (intentFor sg s c) ∈
      (mutate_all env false s c l).2.1 := by
  induction l with
  | nil => cases hsg
  | cons a rest ih =>
    simp only [mutate_all]
    apply List.mem_append.2
    rcases List.mem_cons.1 hsg with h | h
    · subst h
      left
      cases hauth : env.auth ⟨sg, "tcp", 5432, 5432, s, c⟩ <;>
        simp [modify_security_group_rules, hauth, intentFor]
    · exact Or.inr (ih h)

/-- In dry run, the mutation loop issues no provider call at all. -/
theorem mutate_events_dry (env : Env) (s c : String) (l : List String) :
    (mutate_all env true s c l).2.1 = [] := by
  induction l with
  | nil => rfl
  | cons sg rest ih => simp [mutate_all, modify_security_group_rules, ih]

/-- Every event of the resolution phase is an RDS lookup. -/
theorem resolve_events_shape (env : Env) (l : List String) :
    ∀ e ∈ (resolve_targets env l).2.1, ∃ i, e = .lookupRds i := by
  induction l with
  | nil => intro e he; simp [resolve_targets] at he
  | cons i rest ih =>
    intro e he
    cases hr : (get_security_group_ids_for_rds_instance (env.rdsLookup i) i).2 with
    | nil =>
      simp only [resolve_targets, hr] at he
      simp at he
      exact ⟨i, he⟩
    | cons g gs =>
      simp only [resolve_targets, hr] at he
      rcases List.mem_cons.1 he with h | h
      · exact ⟨i, h⟩
      · exact ih e h

/-- A successful resolution phase resolves exactly one group per
selected instance. -/
theorem resolve_targets_ok_length (env : Env) (l : List String) :
    ∀ sgs, (resolve_targets env l).2.2 = .ok sgs → sgs.length = l.length := by
  induction l with
  | nil =>
    intro sgs h
    simp only [resolve_targets] at h
    cases h
    rfl
  | cons i rest ih =>
    intro sgs h
    cases hr : (get_security_group_ids_for_rds_instance (env.rdsLookup i) i).2 with
    | nil => simp [resolve_targets, hr] at h
    | cons g gs =>
      cases ht : (resolve_targets env rest).2.2 with
      | error e => simp [resolve_targets, hr, ht, Except.map] at h
      | ok tl =>
        simp only [resolve_targets, hr, ht, Except.map] at h
        cases h
        simp [ih tl ht]

/-- When every selected instance resolves to at least one security
group, the resolution phase succeeds with one group per instance. -/
theorem resolve_targets_ok_of_resolvable (env : Env) (l : List String)
    (h : ∀ i ∈ l,
      (get_security_group_ids_for_rds_instance (env.rdsLookup i) i).2 ≠ []) :
    ∃ sgs, (resolve_targets env l).2.2 = .ok sgs ∧ sgs.length = l.length := by
  induction l with
  | nil => exact ⟨[], rfl, rfl⟩
  | cons i rest ih =>
    obtain ⟨sgs, h1, h2⟩ := ih (fun j hj => h j (List.mem_cons_of_mem _ hj))
    have hi := h i (List.mem_cons_self i rest)
    cases hr : (get_security_group_ids_for_rds_instance (env.rdsLookup i) i).2 with
    | nil => exact absurd hr hi
    | cons g gs =>
      refine ⟨g :: sgs, ?_, by simp [h2]⟩
      simp [resolve_targets, hr, h1, Except.map]

/-- In dry run, the outcome of every target is a dry-run report. -/
theorem outcomeOf_dry (env : Env) (s c sg : String) :
    outcomeOf env s c true sg = .dryRunReported := rfl

/-- Outside dry run, no target outcome is a dry-run report. -/
theorem outcomeOf_not_dry (env : Env) (s c sg : String) :
    outcomeOf env s c false sg ≠ .dryRunReported := by
  cases hauth : env.auth ⟨sg, "tcp", 5432, 5432, s, c⟩ <;>
    simp [outcomeOf, modify_security_group_rules, hauth]

/-- A failing authorize call yields the `failed` outcome for its
target. -/
theorem outcomeOf_clientError (env : Env) (s c sg e : String)
    (h : env.auth (intentFor sg s c) = .clientError e) :
    outcomeOf env s c false sg = .failed e := by
  unfold intentFor at h
  simp [outcomeOf, modify_security_group_rules, h]

/-- A successful authorize call yields the `applied` outcome for its
target. -/
theorem outcomeOf_auth_ok (env : Env) (s c sg : String)
    (h : env.auth (intentFor sg s c) = .ok) :
    outcomeOf env s c false sg = .applied := by
  unfold intentFor at h
  simp [outcomeOf, modify_security_group_rules, h]

/-- A list of lookup events holds no authorize call. -/
theorem authorizeCalls_eq_nil (evs : List Event) :
    (∀ e ∈ evs, ∃ i, e = .lookupRds i) → authorizeCalls evs = [] := by
  induction evs with
  | nil => intro _; rfl
  | cons e t ih =>
    intro h
    obtain ⟨i, hi⟩ := h e (List.mem_cons_self e t)
    subst hi
    have ht := ih (fun x hx => h x (List.mem_cons_of_mem _ hx))
    simpa [authorizeCalls, List.filterMap_cons] using ht

/-- `authorizeCalls` distributes over concatenation. -/
theorem authorizeCalls_append (a b : List Event) :
    authorizeCalls (a ++ b) = authorizeCalls a ++ authorizeCalls b := by
  simp [authorizeCalls, List.filterMap_append]

/-- `main_run` when the resolution phase raises: the run aborts with the
lookup events issued so far and no outcome list. -/
theorem main_run_error (env : Env) (inp : RunInput) (e : String)
    (h : (resolve_targets env inp.rds_instances).2.2 = .error e) :
    main_run env inp =
      ⟨(resolve_targets env inp.rds_instances).1,
        (resolve_targets env inp.rds_instances).2.1, .error e⟩ := by
  simp [main_run, h]

/-- `main_run` when the resolution phase succeeds: the mutation loop runs
over the resolved groups. -/
theorem main_run_ok (env : Env) (inp : RunInput) (sgs : List String)
    (h : (resolve_targets env inp.rds_instances).2.2 = .ok sgs) :
    main_run env inp =
      ⟨(resolve_targets env inp.rds_instances).1 ++
          (mutate_all env inp.dry_run inp.src_sg inp.description sgs).1,
        (resolve_targets env inp.rds_instances).2.1 ++
          (mutate_all env inp.dry_run inp.src_sg inp.description sgs).2.1,
        .ok (mutate_all env inp.dry_run inp.src_sg inp.description sgs).2.2⟩ := by
  simp [main_run, h]

/-- C1: the claim says a selected database instance that resolves to no
security group yields `TargetUnresolved`, is excluded from the mutation
batch, and the other selected targets are still attempted.  The code
violates this: `main` indexes `[0]` into the possibly empty resolver
result, so the run aborts with an uncaught `IndexError` before the other
target `db-b` is even looked up, and no outcome is produced for any
target. -/
theorem C1_unresolved_target_aborts_run :
    rin1.rds_instances = ["db-a", "db-b"] ∧
    (get_security_group_ids_for_rds_instance (env1.rdsLookup "db-a") "db-a").2
      = [] ∧
    (main_run env1 rin1).result = .error "IndexError: list index out of range" ∧
    (main_run env1 rin1).events = [.lookupRds "db-a"] :=
  ⟨rfl, rfl, rfl, rfl⟩

/-- C2, counterexample: with one selected target that resolves to no
security group, the run aborts with an uncaught `IndexError` and
produces no outcome list at all, so the number of per-target outcomes is
not the number of targets. -/
theorem C2_counterexample :
    rin2.rds_instances.length = 1 ∧
    (main_run env2 rin2).result = .error "IndexError: list index out of range" :=
  ⟨rfl, rfl⟩

/-- C2, amended: provided every selected target resolves to at least one
security group, the run produces exactly one per-target outcome per
selected target, regardless of how many individual mutations fail. -/
theorem C2_outcome_count_when_all_resolve (env : Env) (inp : RunInput)
    (h : ∀ i ∈ inp.rds_instances,
      (get_security_group_ids_for_rds_instance (env.rdsLookup i) i).2 ≠ []) :
    ∃ os, (main_run env inp).result = .ok os ∧
      os.length = inp.rds_instances.length := by
  obtain ⟨sgs, h1, h2⟩ := resolve_targets_ok_of_resolvable env inp.rds_instances h
  refine ⟨(mutate_all env inp.dry_run inp.src_sg inp.description sgs).2.2, ?_, ?_⟩
  · rw [main_run_ok env inp sgs h1]
  · rw [mutate_all_outcomes]
    simp [h2]

/-- C2, witness: a concrete run where both selected targets resolve and
the outcome count equals the target count. -/
theorem C2_outcome_count_witness :
    ∃ os, (main_run env7 rin8).result = .ok os ∧
      os.length = rin8.rds_instances.length :=
  C2_outcome_count_when_all_resolve env7 rin8 (by decide)

/-- C3, counterexample: a dry run in which `db-a` is resolvable but
`db-b` is not aborts with an uncaught `IndexError`, so the resolvable
target `db-a` produces no `DryRunReported` outcome. -/
theorem C3_counterexample :
    rin3.dry_run = true ∧
    (get_security_group_ids_for_rds_instance (env3.rdsLookup "db-a") "db-a").2
      = ["sg-a"] ∧
    (main_run env3 rin3).result = .error "IndexError: list index out of range" :=
  ⟨rfl, rfl, rfl⟩

/-- C3, amended: when the dry-run flag is set, zero authorize-ingress
calls are issued in every run, aborted or not; and in every run that
completes, every selected target produces a `DryRunReported` outcome. -/
theorem C3_dry_run_never_mutates (env : Env) (inp : RunInput)
    (hd : inp.dry_run = true) :
    authorizeCalls (main_run env inp).events = [] ∧
    ∀ os, (main_run env inp).result = .ok os →
      os = List.replicate inp.rds_instances.length .dryRunReported := by
  cases hres : (resolve_targets env inp.rds_instances).2.2 with
  | error e =>
    rw [main_run_error env inp e hres]
    refine ⟨authorizeCalls_eq_nil _ (resolve_events_shape env inp.rds_instances),
      fun os h => ?_⟩
    exact Except.noConfusion h
  | ok sgs =>
    rw [main_run_ok env inp sgs hres]
    constructor
    · rw [authorizeCalls_append,
        authorizeCalls_eq_nil _ (resolve_events_shape env inp.rds_instances),
        hd, mutate_events_dry]
      rfl
    · intro os h
      injection h with h
      subst h
      rw [mutate_all_outcomes, hd,
        ← resolve_targets_ok_length env inp.rds_instances sgs hres]
      exact List.map_const sgs Outcome.dryRunReported

/-- C3, witness: a concrete dry run that issues zero authorize calls and
reports one dry-run outcome for its one target. -/
theorem C3_dry_run_witness :
    authorizeCalls (main_run env7 rin9).events = [] ∧
    [Outcome.dryRunReported] =
      List.replicate rin9.rds_instances.length .dryRunReported :=
  ⟨(C3_dry_run_never_mutates env7 rin9 rfl).1,
   (C3_dry_run_never_mutates env7 rin9 rfl).2 [.dryRunReported] rfl⟩

/-- C4: when the resolution phase succeeds with target T before target U,
a client error on the authorize call for T is caught and reported as a
`failed` outcome at the position of T, while the authorize call for U is
still issued and its outcome is `applied`. -/
theorem C4_failed_target_does_not_block_later (env : Env) (inp : RunInput)
    (pre mid post : List String) (t u e : String)
    (hres : (resolve_targets env inp.rds_instances).2.2 =
      .ok (pre ++ t :: mid ++ u :: post))
    (hd : inp.dry_run = false)
    (ht : env.auth (intentFor t inp.src_sg inp.description) = .clientError e)
    (hu : env.auth (intentFor u inp.src_sg inp.description) = .ok) :
    (main_run env inp).result = .ok
      (pre.map (outcomeOf env inp.src_sg inp.description false) ++
        .failed e ::
          mid.map (outcomeOf env inp.src_sg inp.description false) ++
        .applied ::
          post.map (outcomeOf env inp.src_sg inp.description false)) ∧
    Event.authorizeIngress (intentFor t inp.src_sg inp.description) ∈
      (main_run env inp).events ∧
    Event.authorizeIngress (intentFor u inp.src_sg inp.description) ∈
      (main_run env inp).events := by
  rw [main_run_ok env inp _ hres]
  refine ⟨?_, ?_, ?_⟩
  · show Except.ok _ = _
    rw [mutate_all_outcomes, hd]
    simp [List.map_append, List.map_cons,
      outcomeOf_clientError env inp.src_sg inp.description t e ht,
      outcomeOf_auth_ok env inp.src_sg inp.description u hu]
  · show _ ∈ _ ++ _
    refine List.mem_append_right _ ?_
    rw [hd]
    exact mem_mutate_events env inp.src_sg inp.description _ t (by simp)
  · show _ ∈ _ ++ _
    refine List.mem_append_right _ ?_
    rw [hd]
    exact mem_mutate_events env inp.src_sg inp.description _ u (by simp)

/-- C4, witness: a concrete run where the first target fails with a
duplicate-rule client error and the second target is still attempted and
applied. -/
theorem C4_failed_target_witness :
    (main_run env4 rin4).result = .ok [.failed "Duplicate rule", .applied] ∧
    Event.authorizeIngress (intentFor "sg-t" "sg-src" "desc") ∈
      (main_run env4 rin4).events ∧
    Event.authorizeIngress (intentFor "sg-u" "sg-src" "desc") ∈
      (main_run env4 rin4).events :=
  C4_failed_target_does_not_block_later env4 rin4 [] [] [] "sg-t" "sg-u"
    "Duplicate rule" rfl rfl (by decide) (by decide)

/-- C5, counterexample: a target whose authorize call fails produces the
line `Error updating Security Group: {e}`, which does not name the
affected target security group `sg-a`. -/
theorem C5_counterexample :
    (modify_security_group_rules (fun _ => .clientError "boom") "sg-a" "tcp"
        5432 5432 "sg-src" "desc" false).1 =
      ["Error updating Security Group: boom"] ∧
    (modify_security_group_rules (fun _ => .clientError "boom") "sg-a" "tcp"
        5432 5432 "sg-src" "desc" false).2.2 = .failed "boom" ∧
    lineMentions "Error updating Security Group: boom" "sg-a" = false :=
  ⟨rfl, rfl, by decide⟩

/-- C5, amended: every per-target outcome of the reconciler emits exactly
one line of output; for the applied and dry-run outcomes that line names
the affected target security group, while the failed line reports only
the cause. -/
theorem C5_one_line_per_outcome (auth : Intent → AuthOutcome)
    (sg protocol : String) (fp tp : Nat) (src desc : String) (d : Bool) :
    (modify_security_group_rules auth sg protocol fp tp src desc d).1.length
      = 1 ∧
    (((modify_security_group_rules auth sg protocol fp tp src desc d).2.2
          = .applied ∨
      (modify_security_group_rules auth sg protocol fp tp src desc d).2.2
          = .dryRunReported) →
      ∀ line ∈ (modify_security_group_rules auth sg protocol fp tp src desc d).1,
        lineMentions line sg = true) := by
  cases d with
  | true =>
    refine ⟨rfl, fun _ line hline => ?_⟩
    simp only [modify_security_group_rules, if_true, List.mem_singleton] at hline
    subst hline
    exact lineMentions_append_right _ _ _ (lineMentions_append_right _ _ _
      (lineMentions_append_left _ _ _ (lineMentions_pyrepr sg)))
  | false =>
    cases hauth : auth ⟨sg, protocol, fp, tp, src, desc⟩ with
    | ok =>
      refine ⟨by simp [modify_security_group_rules, hauth], fun _ line hline => ?_⟩
      simp only [modify_security_group_rules, hauth, Bool.false_eq_true,
        if_false, List.mem_singleton] at hline
      subst hline
      exact lineMentions_append_right _ _ _
        (lineMentions_append_left _ _ _ (lineMentions_self sg))
    | clientError m =>
      refine ⟨by simp [modify_security_group_rules, hauth], fun hcontra line _ => ?_⟩
      rcases hcontra with h | h <;>
        simp [modify_security_group_rules, hauth] at h

/-- C5, witness: a concrete dry-run report that is one line and names the
target security group. -/
theorem C5_one_line_witness :
    (modify_security_group_rules (fun _ => AuthOutcome.ok) "sg-a" "tcp" 5432
        5432 "sg-s" "desc" true).1.length = 1 ∧
    lineMentions
      "Dry run: Would update Security Group \x27sg-a\x27 to allow connections from \x27sg-s\x27"
      "sg-a" = true :=
  ⟨(C5_one_line_per_outcome (fun _ => AuthOutcome.ok) "sg-a" "tcp" 5432 5432
      "sg-s" "desc" true).1,
   (C5_one_line_per_outcome (fun _ => AuthOutcome.ok) "sg-a" "tcp" 5432 5432
      "sg-s" "desc" true).2 (Or.inr rfl) _ (by decide)⟩

/-- C6: ECS source resolution returns the first security group of the
first deployment of the service; when the service has no deployments or
the deployment lists no security groups, resolution raises, and the run
aborts before any RDS lookup or mutation, with no fallback. -/
theorem C6_ecs_source_first_of_first (svc : EcsService) (rest : List EcsService)
    (env : Env) (d : Bool) (desc : String) (instances : List String) :
    (∀ dep deps g gs, svc.deployments = dep :: deps →
        dep.networkConfiguration.awsvpcConfiguration.securityGroups = g :: gs →
        get_security_group_from_ecs_service (svc :: rest) = .ok g) ∧
    ((svc.deployments = [] ∨
        ∃ dep deps, svc.deployments = dep :: deps ∧
          dep.networkConfiguration.awsvpcConfiguration.securityGroups = []) →
      get_security_group_from_ecs_service (svc :: rest) =
          .error "IndexError: list index out of range" ∧
        main_ecs env (svc :: rest) d desc instances =
          ⟨[], [], .error "IndexError: list index out of range"⟩) := by
  constructor
  · intro dep deps g gs h1 h2
    simp [get_security_group_from_ecs_service, h1, h2]
  · intro h
    have herr : get_security_group_from_ecs_service (svc :: rest) =
        .error "IndexError: list index out of range" := by
      rcases h with h | ⟨dep, deps, h1, h2⟩
      · simp [get_security_group_from_ecs_service, h]
      · simp [get_security_group_from_ecs_service, h1, h2]
    exact ⟨herr, by simp [main_ecs, herr]⟩

/-- C6, witness: a service with one deployment listing two groups
resolves to the first group, and a service with no deployments aborts
the run with no provider call. -/
theorem C6_ecs_source_witness :
    get_security_group_from_ecs_service [svc6] = .ok "sg-ecs" ∧
    main_ecs env6 [svc6bad] false "desc" ["db-a"] =
      ⟨[], [], .error "IndexError: list index out of range"⟩ :=
  ⟨(C6_ecs_source_first_of_first svc6 [] env6 false "desc" []).1
      ⟨⟨⟨["sg-ecs", "sg-extra"]⟩⟩⟩ [] "sg-ecs" ["sg-extra"] rfl rfl,
    ((C6_ecs_source_first_of_first svc6bad [] env6 false "desc" ["db-a"]).2
      (Or.inl rfl)).2⟩

/-- C7: target resolution returns an empty result, not an error, when
the lookup raises or when the provider returns no matching instance;
otherwise it returns the security group ids of the instance, and the
run takes the first of them as the target. -/
theorem C7_target_resolution_empty_or_first (iid : String) :
    (∀ msg,
      (get_security_group_ids_for_rds_instance (.raises msg) iid).2 = []) ∧
    (get_security_group_ids_for_rds_instance (.returns []) iid).2 = [] ∧
    (∀ db dbs,
      (get_security_group_ids_for_rds_instance (.returns (db :: dbs)) iid).2 =
        db.VpcSecurityGroups.map (fun sg => sg.VpcSecurityGroupId)) ∧
    (∀ env : Env, ∀ db dbs p ps, env.rdsLookup iid = .returns (db :: dbs) →
        db.VpcSecurityGroups = p :: ps →
        (resolve_targets env [iid]).2.2 = .ok [p.VpcSecurityGroupId]) := by
  refine ⟨fun _ => rfl, rfl, fun _ _ => rfl, ?_⟩
  intro env db dbs p ps h1 h2
  simp [resolve_targets, get_security_group_ids_for_rds_instance, h1, h2,
    Except.map]

/-- C7, witness: a failing lookup resolves to the empty result, and an
instance with one group resolves to that first group. -/
theorem C7_target_resolution_witness :
    (get_security_group_ids_for_rds_instance (.raises "AccessDenied") "db-a").2
      = [] ∧
    (resolve_targets env7 ["db-a"]).2.2 = .ok ["sg-a"] :=
  ⟨(C7_target_resolution_empty_or_first "db-a").1 "AccessDenied",
   (C7_target_resolution_empty_or_first "db-a").2.2.2 env7 ⟨[⟨"sg-a"⟩]⟩ []
     ⟨"sg-a"⟩ [] rfl rfl⟩

/-- C8: every authorize call issued by a run carries the same rule
shape: protocol `tcp`, both ports 5432, the single source security
group of the run, and the description of the run. -/
theorem C8_uniform_rule_shape (env : Env) (inp : RunInput) (it : Intent)
    (h : Event.authorizeIngress it ∈ (main_run env inp).events) :
    it.IpProtocol = "tcp" ∧ it.FromPort = 5432 ∧ it.ToPort = 5432 ∧
    it.sourceGroupId = inp.src_sg ∧ it.Description = inp.description := by
  cases hres : (resolve_targets env inp.rds_instances).2.2 with
  | error e =>
    rw [main_run_error env inp e hres] at h
    obtain ⟨i, hi⟩ := resolve_events_shape env inp.rds_instances _ h
    exact Event.noConfusion hi
  | ok sgs =>
    rw [main_run_ok env inp sgs hres] at h
    rcases List.mem_append.1 h with h | h
    · obtain ⟨i, hi⟩ := resolve_events_shape env inp.rds_instances _ h
      exact Event.noConfusion hi
    · obtain ⟨sg, _, hsg⟩ := mutate_events_shape env inp.dry_run inp.src_sg
        inp.description sgs _ h
      injection hsg with hsg
      subst hsg
      exact ⟨rfl, rfl, rfl, rfl, rfl⟩

/-- C8, witness: the authorize call of a concrete run has the uniform
rule shape. -/
theorem C8_uniform_rule_witness :
    (intentFor "sg-a" "sg-src" "desc").IpProtocol = "tcp" ∧
    (intentFor "sg-a" "sg-src" "desc").FromPort = 5432 ∧
    (intentFor "sg-a" "sg-src" "desc").ToPort = 5432 ∧
    (intentFor "sg-a" "sg-src" "desc").sourceGroupId = rin8.src_sg ∧
    (intentFor "sg-a" "sg-src" "desc").Description = rin8.description :=
  C8_uniform_rule_shape env7 rin8 (intentFor "sg-a" "sg-src" "desc") (by decide)

/-- C9: the dry-run flag applies uniformly: in a dry run every outcome
is a dry-run report, and outside dry run no outcome is; no run mixes
applied and dry-run-reported outcomes. -/
theorem C9_no_mixed_modes (env : Env) (inp : RunInput) (os : List Outcome)
    (h : (main_run env inp).result = .ok os) :
    (inp.dry_run = true → ∀ o ∈ os, o = .dryRunReported) ∧
    (inp.dry_run = false → ∀ o ∈ os, o ≠ .dryRunReported) := by
  cases hres : (resolve_targets env inp.rds_instances).2.2 with
  | error e =>
    rw [main_run_error env inp e hres] at h
    exact Except.noConfusion h
  | ok sgs =>
    rw [main_run_ok env inp sgs hres] at h
    injection h with h
    subst h
    rw [mutate_all_outcomes]
    constructor
    · intro hd o ho
      rw [hd] at ho
      obtain ⟨sg, _, rfl⟩ := List.mem_map.1 ho
      exact outcomeOf_dry env inp.src_sg inp.description sg
    · intro hd o ho
      rw [hd] at ho
      obtain ⟨sg, _, rfl⟩ := List.mem_map.1 ho
      exact outcomeOf_not_dry env inp.src_sg inp.description sg

/-- C9, witness: a concrete dry run reports its only outcome as
dry-run. -/
theorem C9_no_mixed_modes_witness :
    Outcome.dryRunReported = .dryRunReported ∧
    Outcome.applied ≠ .dryRunReported :=
  ⟨(C9_no_mixed_modes env7 rin9 [.dryRunReported] rfl).1 rfl
      .dryRunReported (by decide),
   (C9_no_mixed_modes env7 rin8 [.applied] rfl).2 rfl .applied (by decide)⟩

/-- C10: the events of a run split into a resolution phase of RDS
lookups followed by a mutation phase of authorize calls, so every
lookup completes before the first mutation; and when resolution raises,
the run aborts with zero authorize calls issued. -/
theorem C10_lookups_precede_mutations (env : Env) (inp : RunInput) :
    ∃ lookups auths,
      (main_run env inp).events = lookups ++ auths ∧
      (∀ e ∈ lookups, ∃ i, e = .lookupRds i) ∧
      (∀ e ∈ auths, ∃ it, e = .authorizeIngress it) ∧
      (∀ msg, (main_run env inp).result = .error msg → auths = []) := by
  cases hres : (resolve_targets env inp.rds_instances).2.2 with
  | error e =>
    rw [main_run_error env inp e hres]
    exact ⟨(resolve_targets env inp.rds_instances).2.1, [], by simp,
      resolve_events_shape env inp.rds_instances, by simp, fun _ _ => rfl⟩
  | ok sgs =>
    rw [main_run_ok env inp sgs hres]
    refine ⟨(resolve_targets env inp.rds_instances).2.1,
      (mutate_all env inp.dry_run inp.src_sg inp.description sgs).2.1, rfl,
      resolve_events_shape env inp.rds_instances, ?_,
      fun msg hmsg => Except.noConfusion hmsg⟩
    intro e he
    obtain ⟨sg, _, rfl⟩ := mutate_events_shape env inp.dry_run inp.src_sg
      inp.description sgs e he
    exact ⟨intentFor sg inp.src_sg inp.description, rfl⟩

/-- C10, witness: the phase split at a concrete run that aborts during
resolution. -/
theorem C10_lookups_precede_witness :
    ∃ lookups auths,
      (main_run env1 rin10).events = lookups ++ auths ∧
      (∀ e ∈ lookups, ∃ i, e = .lookupRds i) ∧
      (∀ e ∈ auths, ∃ it, e = .authorizeIngress it) ∧
      (∀ msg, (main_run env1 rin10).result = .error msg → auths = []) :=
  C10_lookups_precede_mutations env1 rin10
